import Mathlib

/-!
Shallow embedding of `supertokens_python/recipe/session/claim_base_classes/
primitive_array_claim.py`: the payload read/write primitives of
`PrimitiveArrayClaim`, the shared validator algorithm `SCVMixin._validate` /
`SCVMixin.should_refetch`, and the validator factory
`PrimitiveArrayClaimValidators`.

Modelling conventions:
* A JSON primitive (array element / configured scalar) is `Prim`.
* The access-token payload is an association list from claim key to `PVal`.
  `PVal.null` is the Python literal `None` stored at a key (the merge
  tombstone); `PVal.doc v t` is the `{"v": ..., "t": ...}` sub-document, each
  field optional so that corrupted payloads (missing `v` or `t`) are
  representable.
* Python runtime errors (`KeyError` from `del d[k]` / `d[k]` on a missing key,
  `AttributeError` from `None.get(...)`, `AssertionError` from a failing
  `assert`) are an explicit `PyErr` in an `Except` result.
* `get_timestamp_ms()` is passed in explicitly as `now : Int`; each embedded
  operation reads the clock at most once, matching the single call site in the
  source function being embedded.
* Python float division `(now - t) / 1000` is modelled as exact division in ℚ.
-/

inductive Prim
  | str (s : String)
  | int (n : Int)
  | bool (b : Bool)
deriving DecidableEq, Repr

/-- A value stored at a claim key inside the payload mapping: either the
Python literal `None` (written by `remove_from_payload_by_merge_`) or the
`{"v": ..., "t": ...}` sub-document (each field may be missing). -/
inductive PVal
  | null
  | doc (v : Option (List Prim)) (t : Option Int)
deriving DecidableEq, Repr

def Payload := List (String × PVal)
deriving DecidableEq, Repr

/-- Python runtime errors that the embedded operations can raise. -/
inductive PyErr
  | keyError
  | attributeError
  | assertionError
deriving DecidableEq, Repr

/-- `payload.get(k)` resp. `payload[k]` lookup (dict lookup by key). -/
def plookup (k : String) : Payload → Option PVal
  | [] => none
  | (k', v') :: rest => if k' = k then some v' else plookup k rest

/-- `payload[k] = v` on a dict: overwrite the existing binding, or append. -/
def pinsert (k : String) (v : PVal) : Payload → Payload
  | [] => [(k, v)]
  | (k', v') :: rest => if k' = k then (k, v) :: rest else (k', v') :: pinsert k v rest

/-- `del payload[k]` minus the missing-key check (that check lives in
`remove_from_payload`). -/
def perase (k : String) : Payload → Payload
  | [] => []
  | (k', v') :: rest => if k' = k then rest else (k', v') :: perase k rest

/-- Python dicts have distinct keys; payloads built from dicts satisfy this. -/
def NodupKeys (p : Payload) : Prop := (p.map Prod.fst).Nodup

instance : DecidablePred NodupKeys := fun p =>
  inferInstanceAs (Decidable (p.map Prod.fst).Nodup)

/-- `PrimitiveArrayClaim.get_value_from_payload`:
`payload.get(self.key, {}).get("v")`. When the key is missing the default `{}`
yields `None`; when the key holds the Python literal `None` (merge tombstone),
`None.get("v")` raises `AttributeError`. -/
def get_value_from_payload (key : String) (p : Payload) :
    Except PyErr (Option (List Prim)) :=
  match plookup key p with
  | none => .ok none
  | some .null => .error .attributeError
  | some (.doc v _) => .ok v

/-- `PrimitiveArrayClaim.get_last_refetch_time`:
`payload.get(self.key, {}).get("t")`. -/
def get_last_refetch_time (key : String) (p : Payload) :
    Except PyErr (Option Int) :=
  match plookup key p with
  | none => .ok none
  | some .null => .error .attributeError
  | some (.doc _ t) => .ok t

/-- `PrimitiveArrayClaim.add_to_payload_`:
`payload[self.key] = {"v": value, "t": get_timestamp_ms()}`. -/
def add_to_payload_ (key : String) (value : List Prim) (now : Int)
    (p : Payload) : Payload :=
  pinsert key (.doc (some value) (some now)) p

/-- `PrimitiveArrayClaim.remove_from_payload_by_merge_`:
`payload[self.key] = None`. -/
def remove_from_payload_by_merge_ (key : String) (p : Payload) : Payload :=
  pinsert key .null p

/-- `PrimitiveArrayClaim.remove_from_payload`: `del payload[self.key]`, which
raises `KeyError` when the key is absent. -/
def remove_from_payload (key : String) (p : Payload) : Except PyErr Payload :=
  match plookup key p with
  | some _ => .ok (perase key p)
  | none => .error .keyError

/-- `SCVMixin.should_refetch`: value missing, or (max age set and stored
timestamp `payload[claim.key].get("t", 0)` strictly older than
`now - max_age_in_sec * 1000`). Python `or` short-circuits, so the direct
indexing `payload[claim.key]` is only evaluated when the value is present. -/
def should_refetch (key : String) (max_age_in_sec : Option Int) (now : Int)
    (p : Payload) : Except PyErr Bool :=
  match get_value_from_payload key p with
  | .error e => .error e
  | .ok none => .ok true
  | .ok (some _) =>
    match max_age_in_sec with
    | none => .ok false
    | some m =>
      match plookup key p with
      | none => .error .keyError
      | some .null => .error .attributeError
      | some (.doc _ t) => .ok (decide (t.getD 0 < now - m * 1000))

/-- The value configured on a validator: `SCVMixin.val` is a single primitive
for `IncludesSCV`/`ExcludesSCV` and a list for `IncludesAllSCV`/
`ExcludesAllSCV`. -/
inductive CfgVal
  | single (v : Prim)
  | list (l : List Prim)
deriving DecidableEq, Repr

/-- `vals = val if isinstance(val, list) else [val]` in `SCVMixin._validate`. -/
def CfgVal.normalize : CfgVal → List Prim
  | .single v => [v]
  | .list l => l

/-- A JSON value appearing inside a `ClaimValidationResult` reason dict. -/
inductive JVal
  | str (s : String)
  | rat (q : ℚ)
  | int (n : Int)
  | prim (v : Prim)
  | primList (l : List Prim)
  | null
deriving DecidableEq, Repr

/-- How `self.val` is embedded into a reason dict unchanged (the
`"value does not exist"` reason reports the configured value as-is). -/
def CfgVal.toJVal : CfgVal → JVal
  | .single v => .prim v
  | .list l => .primList l

/-- `ClaimValidationResult`: `is_valid=True` carries no reason; invalid
results carry the reason dict, modelled as the literal key/value list. -/
inductive ClaimValidationResult
  | valid
  | invalid (reason : List (String × JVal))
deriving DecidableEq, Repr

/-- `"expectedToInclude" if is_include else "expectedToNotInclude"`. -/
def expectedKeyName (is_include : Bool) : String :=
  if is_include then "expectedToInclude" else "expectedToNotInclude"

/-- The `for v in vals` loop of the include branch: first element of `vals`
not contained in the claim-value set (`None` when all are present). -/
def scvLoopInclude (claimVal : List Prim) : List Prim → Option Prim
  | [] => none
  | v :: rest =>
    if v ∈ claimVal then scvLoopInclude claimVal rest else some v

/-- The `for v in vals` loop of the exclude branch: first element of `vals`
contained in the claim-value set (`None` when none is present). -/
def scvLoopExclude (claimVal : List Prim) : List Prim → Option Prim
  | [] => none
  | v :: rest =>
    if v ∈ claimVal then some v else scvLoopExclude claimVal rest

/-- Steps 3-5 of `SCVMixin._validate`: normalize the configured value, run the
include or exclude membership loop, and report the first failing element as a
`"wrong value"` reason (the loops short-circuit exactly as the Python `for`
loops do). -/
def validateVals (val : CfgVal) (claimVal : List Prim) (is_include : Bool) :
    ClaimValidationResult :=
  let vals := val.normalize
  let firstFail :=
    if is_include then scvLoopInclude claimVal vals
    else scvLoopExclude claimVal vals
  match firstFail with
  | some _ =>
    .invalid [("message", .str "wrong value"),
              (expectedKeyName is_include, .primList vals),
              ("actualValue", .primList claimVal)]
  | none => .valid

/-- `SCVMixin._validate` (shared by all four validator classes; `is_include`
selects the branch each concrete `validate` passes). -/
def SCVMixin.validate (key : String) (val : CfgVal)
    (max_age_in_sec : Option Int) (is_include : Bool) (now : Int)
    (p : Payload) : Except PyErr ClaimValidationResult :=
  match get_value_from_payload key p with
  | .error e => .error e
  | .ok none =>
    .ok (.invalid [("message", .str "value does not exist"),
                   (expectedKeyName is_include, val.toJVal),
                   ("actualValue", .null)])
  | .ok (some claimVal) =>
    match get_last_refetch_time key p with
    | .error e => .error e
    | .ok none => .error .assertionError
    | .ok (some lastRefetchTime) =>
      let ageInSec : ℚ := ((now - lastRefetchTime : Int) : ℚ) / 1000
      match max_age_in_sec with
      | some m =>
        if (m : ℚ) < ageInSec then
          .ok (.invalid [("message", .str "expired"),
                         ("ageInSeconds", .rat ageInSec),
                         ("maxAgeInSeconds", .int m)])
        else .ok (validateVals val claimVal is_include)
      | none => .ok (validateVals val claimVal is_include)

/-- A configured session-claim validator as built by the factory: the four
classes `IncludesSCV`, `ExcludesSCV`, `IncludesAllSCV`, `ExcludesAllSCV`
differ only in the shape of `val` and the `is_include` flag their `validate`
passes to `SCVMixin._validate`. -/
structure SCV where
  id : String
  claimKey : String
  val : CfgVal
  is_include : Bool
  max_age_in_sec : Option Int
deriving DecidableEq, Repr

def SCV.validate (s : SCV) (now : Int) (p : Payload) :
    Except PyErr ClaimValidationResult :=
  SCVMixin.validate s.claimKey s.val s.max_age_in_sec s.is_include now p

/-- Python truthiness of `x or d` for `Optional[int]` (`None` and `0` are
falsy). -/
def pyOrInt (x : Option Int) (d : Int) : Int :=
  match x with
  | none => d
  | some n => if n = 0 then d else n

/-- Python truthiness of `x or d` for `Optional[str]` (`None` and `""` are
falsy). -/
def pyOrStr (x : Option String) (d : String) : String :=
  match x with
  | none => d
  | some s => if s = "" then d else s

/-- `PrimitiveArrayClaimValidators`: the per-claim validator factory. -/
structure PrimitiveArrayClaimValidators where
  claimKey : String
  default_max_age_in_sec : Int
deriving DecidableEq, Repr

def PrimitiveArrayClaimValidators.includes
    (f : PrimitiveArrayClaimValidators) (val : Prim) (id_ : Option String)
    (max_age_in_seconds : Option Int) : SCV :=
  { id := pyOrStr id_ f.claimKey, claimKey := f.claimKey,
    val := .single val, is_include := true,
    max_age_in_sec := some (pyOrInt max_age_in_seconds f.default_max_age_in_sec) }

def PrimitiveArrayClaimValidators.excludes
    (f : PrimitiveArrayClaimValidators) (val : Prim) (id_ : Option String)
    (max_age_in_seconds : Option Int) : SCV :=
  { id := pyOrStr id_ f.claimKey, claimKey := f.claimKey,
    val := .single val, is_include := false,
    max_age_in_sec := some (pyOrInt max_age_in_seconds f.default_max_age_in_sec) }

def PrimitiveArrayClaimValidators.includes_all
    (f : PrimitiveArrayClaimValidators) (val : List Prim) (id_ : Option String)
    (max_age_in_seconds : Option Int) : SCV :=
  { id := pyOrStr id_ f.claimKey, claimKey := f.claimKey,
    val := .list val, is_include := true,
    max_age_in_sec := some (pyOrInt max_age_in_seconds f.default_max_age_in_sec) }

def PrimitiveArrayClaimValidators.excludes_all
    (f : PrimitiveArrayClaimValidators) (val : List Prim) (id_ : Option String)
    (max_age_in_seconds : Option Int) : SCV :=
  { id := pyOrStr id_ f.claimKey, claimKey := f.claimKey,
    val := .list val, is_include := false,
    max_age_in_sec := some (pyOrInt max_age_in_seconds f.default_max_age_in_sec) }

/-- The configuration state of `PrimitiveArrayClaim` after `__init__`: the key
plus the owned validator factory built with
`default_max_age_in_sec or 300`. -/
structure PrimitiveArrayClaim where
  key : String
  validators : PrimitiveArrayClaimValidators
deriving DecidableEq, Repr

/-- `PrimitiveArrayClaim.__init__` (the `fetch_value` callable is opaque I/O
and not part of the configuration state modelled here). -/
def mkPrimitiveArrayClaim (key : String)
    (default_max_age_in_sec : Option Int) : PrimitiveArrayClaim :=
  { key := key,
    validators := { claimKey := key,
                    default_max_age_in_sec := pyOrInt default_max_age_in_sec 300 } }

/-! ## Association-list lemmas (Python dict semantics) -/

theorem plookup_pinsert_self (k : String) (v : PVal) (p : Payload) :
    plookup k (pinsert k v p) = some v := by
  induction p with
  | nil => simp [pinsert, plookup]
  | cons hd rest ih =>
    obtain ⟨k0, v0⟩ := hd
    by_cases h : k0 = k
    · simp [pinsert, plookup, h]
    · simp [pinsert, plookup, h, ih]

theorem plookup_pinsert_ne (k k2 : String) (v : PVal) (p : Payload)
    (hne : k2 ≠ k) : plookup k2 (pinsert k v p) = plookup k2 p := by
  induction p with
  | nil => simp [pinsert, plookup, Ne.symm hne]
  | cons hd rest ih =>
    obtain ⟨k0, v0⟩ := hd
    by_cases h : k0 = k
    · subst h
      simp [pinsert, plookup, Ne.symm hne]
    · simp only [pinsert, if_neg h, plookup]
      by_cases h2 : k0 = k2
      · simp [h2]
      · simp [h2, ih]

theorem plookup_perase_ne (k k2 : String) (p : Payload)
    (hne : k2 ≠ k) : plookup k2 (perase k p) = plookup k2 p := by
  induction p with
  | nil => simp [perase]
  | cons hd rest ih =>
    obtain ⟨k0, v0⟩ := hd
    by_cases h : k0 = k
    · subst h
      simp [perase, plookup, Ne.symm hne]
    · simp only [perase, if_neg h, plookup]
      by_cases h2 : k0 = k2
      · simp [h2]
      · simp [h2, ih]

theorem plookup_eq_none_of_not_mem (k : String) (p : Payload)
    (h : k ∉ p.map Prod.fst) : plookup k p = none := by
  induction p with
  | nil => rfl
  | cons hd rest ih =>
    obtain ⟨k0, v0⟩ := hd
    simp only [List.map_cons, List.mem_cons] at h
    push_neg at h
    simp [plookup, Ne.symm h.1, ih h.2]

theorem plookup_perase_self (k : String) (p : Payload)
    (hnd : NodupKeys p) : plookup k (perase k p) = none := by
  induction p with
  | nil => rfl
  | cons hd rest ih =>
    obtain ⟨k0, v0⟩ := hd
    unfold NodupKeys at hnd
    simp only [List.map_cons, List.nodup_cons] at hnd
    by_cases h : k0 = k
    · subst h
      simpa [perase] using plookup_eq_none_of_not_mem k0 rest hnd.1
    · simp [perase, plookup, h, ih hnd.2]

/-! ## Validator-loop lemmas -/

theorem scvLoopInclude_eq_none_iff (cv l : List Prim) :
    scvLoopInclude cv l = none ↔ ∀ v ∈ l, v ∈ cv := by
  induction l with
  | nil => simp [scvLoopInclude]
  | cons v rest ih =>
    by_cases h : v ∈ cv
    · simp [scvLoopInclude, h, ih]
    · simp [scvLoopInclude, h]

theorem scvLoopExclude_eq_none_iff (cv l : List Prim) :
    scvLoopExclude cv l = none ↔ ∀ v ∈ l, v ∉ cv := by
  induction l with
  | nil => simp [scvLoopExclude]
  | cons v rest ih =>
    by_cases h : v ∈ cv
    · simp [scvLoopExclude, h]
    · simp [scvLoopExclude, h, ih]

theorem scvLoopInclude_eq_some (cv l : List Prim) (w : Prim)
    (h : scvLoopInclude cv l = some w) : w ∈ l ∧ w ∉ cv := by
  induction l with
  | nil => simp [scvLoopInclude] at h
  | cons v rest ih =>
    by_cases hv : v ∈ cv
    · simp only [scvLoopInclude, if_pos hv] at h
      obtain ⟨h1, h2⟩ := ih h
      exact ⟨List.mem_cons_of_mem v h1, h2⟩
    · simp only [scvLoopInclude, if_neg hv, Option.some.injEq] at h
      subst h
      exact ⟨List.mem_cons_self _ _, hv⟩

theorem scvLoopExclude_eq_some (cv l : List Prim) (w : Prim)
    (h : scvLoopExclude cv l = some w) : w ∈ l ∧ w ∈ cv := by
  induction l with
  | nil => simp [scvLoopExclude] at h
  | cons v rest ih =>
    by_cases hv : v ∈ cv
    · simp only [scvLoopExclude, if_pos hv, Option.some.injEq] at h
      subst h
      exact ⟨List.mem_cons_self _ _, hv⟩
    · simp only [scvLoopExclude, if_neg hv] at h
      obtain ⟨h1, h2⟩ := ih h
      exact ⟨List.mem_cons_of_mem v h1, h2⟩

theorem scvLoopInclude_eq_find (cv l : List Prim) :
    scvLoopInclude cv l = l.find? (fun v => !decide (v ∈ cv)) := by
  induction l with
  | nil => rfl
  | cons v rest ih =>
    by_cases h : v ∈ cv
    · rw [scvLoopInclude, if_pos h, ih, List.find?_cons_of_neg]
      simp [h]
    · rw [scvLoopInclude, if_neg h, List.find?_cons_of_pos]
      simp [h]

theorem scvLoopExclude_eq_find (cv l : List Prim) :
    scvLoopExclude cv l = l.find? (fun v => decide (v ∈ cv)) := by
  induction l with
  | nil => rfl
  | cons v rest ih =>
    by_cases h : v ∈ cv
    · rw [scvLoopExclude, if_pos h, List.find?_cons_of_pos]
      simp [h]
    · rw [scvLoopExclude, if_neg h, ih, List.find?_cons_of_neg]
      simp [h]

/-- Full characterization of the membership step of `_validate`. -/
theorem validateVals_spec (val : CfgVal) (cv : List Prim) (inc : Bool) :
    validateVals val cv inc =
      if (if inc then ∀ v ∈ val.normalize, v ∈ cv
          else ∀ v ∈ val.normalize, v ∉ cv)
      then ClaimValidationResult.valid
      else .invalid [("message", .str "wrong value"),
                     (expectedKeyName inc, .primList val.normalize),
                     ("actualValue", .primList cv)] := by
  unfold validateVals
  cases inc with
  | true =>
    simp only [if_true]
    cases hl : scvLoopInclude cv val.normalize with
    | none =>
      rw [if_pos ((scvLoopInclude_eq_none_iff cv val.normalize).mp hl)]
    | some w =>
      obtain ⟨h1, h2⟩ := scvLoopInclude_eq_some cv val.normalize w hl
      rw [if_neg (fun hall => h2 (hall w h1))]
  | false =>
    simp only [Bool.false_eq_true, if_false]
    cases hl : scvLoopExclude cv val.normalize with
    | none =>
      rw [if_pos ((scvLoopExclude_eq_none_iff cv val.normalize).mp hl)]
    | some w =>
      obtain ⟨h1, h2⟩ := scvLoopExclude_eq_some cv val.normalize w hl
      rw [if_neg (fun hall => hall w h1 h2)]

/-- When the claim value is present with its timestamp and the freshness check
passes, `_validate` reaches the membership step. -/
theorem validate_fresh_eq (key : String) (val : CfgVal) (maxAge : Option Int)
    (inc : Bool) (now t0 : Int) (cv : List Prim) (p : Payload)
    (hv : plookup key p = some (.doc (some cv) (some t0)))
    (hfresh : ∀ m, maxAge = some m → ((now - t0 : Int) : ℚ) / 1000 ≤ (m : ℚ)) :
    SCVMixin.validate key val maxAge inc now p =
      .ok (validateVals val cv inc) := by
  unfold SCVMixin.validate get_value_from_payload get_last_refetch_time
  rw [hv]
  cases maxAge with
  | none => rfl
  | some m =>
    simp only
    rw [if_neg (not_lt.mpr (hfresh m rfl))]

/-- When the claim value reads back as `None`, `_validate` returns the
`"value does not exist"` invalid result. -/
theorem validate_missing_eq (key : String) (val : CfgVal) (maxAge : Option Int)
    (inc : Bool) (now : Int) (p : Payload)
    (h : get_value_from_payload key p = .ok none) :
    SCVMixin.validate key val maxAge inc now p =
      .ok (.invalid [("message", .str "value does not exist"),
                     (expectedKeyName inc, val.toJVal),
                     ("actualValue", .null)]) := by
  unfold SCVMixin.validate
  rw [h]

/-- When the claim value is present but its age strictly exceeds the
configured max age, `_validate` returns the `"expired"` invalid result. -/
theorem validate_expired_eq (key : String) (val : CfgVal) (m : Int)
    (inc : Bool) (now t0 : Int) (cv : List Prim) (p : Payload)
    (hv : plookup key p = some (.doc (some cv) (some t0)))
    (hexp : (m : ℚ) < ((now - t0 : Int) : ℚ) / 1000) :
    SCVMixin.validate key val (some m) inc now p =
      .ok (.invalid [("message", .str "expired"),
                     ("ageInSeconds", .rat (((now - t0 : Int) : ℚ) / 1000)),
                     ("maxAgeInSeconds", .int m)]) := by
  unfold SCVMixin.validate get_value_from_payload get_last_refetch_time
  rw [hv]
  simp only
  rw [if_pos hexp]

/-! ## Claim theorems -/

/-- C4: for every payload and value `v`, reading the claim value back from
`add_to_payload_ payload v` yields `v`, and reading the last-refetch time
yields the timestamp taken at the instant of the add. -/
theorem C4_add_get_roundtrip (key : String) (v : List Prim) (now : Int)
    (p : Payload) :
    get_value_from_payload key (add_to_payload_ key v now p) = .ok (some v)
    ∧ get_last_refetch_time key (add_to_payload_ key v now p) = .ok (some now) := by
  constructor
  · unfold get_value_from_payload add_to_payload_
    rw [plookup_pinsert_self]
  · unfold get_last_refetch_time add_to_payload_
    rw [plookup_pinsert_self]

/-- C5: whenever `get_value_from_payload` returns `None` (in particular on the
empty payload), `_validate` of every variant returns — without raising — the
invalid result with the `"value does not exist"` reason, whose
expected-key name follows the include/exclude axis and which reports the
configured value as-is and `actualValue` as `None`. -/
theorem C5_missing_value (key : String) (val : CfgVal) (maxAge : Option Int)
    (inc : Bool) (now : Int) (p : Payload)
    (h : get_value_from_payload key p = .ok none) :
    SCVMixin.validate key val maxAge inc now p =
      .ok (.invalid [("message", .str "value does not exist"),
                     (expectedKeyName inc, val.toJVal),
                     ("actualValue", .null)]) :=
  validate_missing_eq key val maxAge inc now p h

theorem C5_missing_value_witness :
    SCVMixin.validate "st" (CfgVal.single (Prim.str "a")) (some 300) true 0 [] =
      .ok (.invalid [("message", .str "value does not exist"),
                     ("expectedToInclude", JVal.prim (Prim.str "a")),
                     ("actualValue", .null)]) :=
  C5_missing_value "st" (CfgVal.single (Prim.str "a")) (some 300) true 0 [] rfl

/-- C2 counterexample: after `remove_from_payload_by_merge_`, reading the
value back does not return `None`: `payload.get(key, {})` yields the stored
`None` (the default `{}` applies only to a missing key), so `.get("v")`
raises `AttributeError`. -/
theorem C2_tombstone_counterexample :
    get_value_from_payload "st" (remove_from_payload_by_merge_ "st" []) =
        .error .attributeError
    ∧ get_value_from_payload "st" (remove_from_payload_by_merge_ "st" []) ≠
        .ok none :=
  ⟨rfl, fun h => Except.noConfusion h⟩

/-- C2 (amended): `remove_from_payload_by_merge_` maps the key to the null
marker (the key is not deleted), and a subsequent `get_value_from_payload`
on that payload raises `AttributeError` rather than returning `None`. -/
theorem C2_tombstone (key : String) (p : Payload) :
    plookup key (remove_from_payload_by_merge_ key p) = some PVal.null
    ∧ get_value_from_payload key (remove_from_payload_by_merge_ key p) =
        .error .attributeError := by
  constructor
  · exact plookup_pinsert_self key PVal.null p
  · unfold get_value_from_payload remove_from_payload_by_merge_
    rw [plookup_pinsert_self]

/-- C3 counterexample: the first `remove_from_payload` deletes the key, and
the second call on the resulting payload raises `KeyError` instead of being a
no-op. -/
theorem C3_remove_twice_counterexample :
    remove_from_payload "st" [("st", PVal.doc (some []) (some 0))] =
        .ok ([] : Payload)
    ∧ remove_from_payload "st" ([] : Payload) = .error .keyError
    ∧ remove_from_payload "st" ([] : Payload) ≠ .ok ([] : Payload) :=
  ⟨rfl, rfl, fun h => Except.noConfusion h⟩

/-- C3 (amended): after a successful `remove_from_payload` on a payload with
distinct keys, the key is absent, and a second `remove_from_payload` raises
`KeyError` (`del payload[key]` on a missing key) rather than leaving the
payload unchanged. -/
theorem C3_remove_not_idempotent (key : String) (p p2 : Payload)
    (hnd : NodupKeys p) (h : remove_from_payload key p = .ok p2) :
    plookup key p2 = none
    ∧ remove_from_payload key p2 = .error .keyError := by
  unfold remove_from_payload at h
  cases hl : plookup key p with
  | none => rw [hl] at h; exact Except.noConfusion h
  | some e =>
    rw [hl] at h
    have hp2 : p2 = perase key p := (Except.ok.injEq _ _ |>.mp h).symm
    subst hp2
    have hnone := plookup_perase_self key p hnd
    refine ⟨hnone, ?_⟩
    unfold remove_from_payload
    rw [hnone]

theorem C3_remove_not_idempotent_witness :
    plookup "st" ([] : Payload) = none
    ∧ remove_from_payload "st" ([] : Payload) = .error .keyError :=
  C3_remove_not_idempotent "st" [("st", PVal.doc (some []) (some 0))] []
    (by decide) rfl

/-- C8: each of `add_to_payload_`, `remove_from_payload_by_merge_` and
(when it succeeds) `remove_from_payload` changes at most the entry at the
claim's own key: every other key maps to an unchanged value afterwards. -/
theorem C8_frame (key k2 : String) (v : List Prim) (now : Int) (p p2 : Payload)
    (hne : k2 ≠ key) :
    plookup k2 (add_to_payload_ key v now p) = plookup k2 p
    ∧ plookup k2 (remove_from_payload_by_merge_ key p) = plookup k2 p
    ∧ (remove_from_payload key p = .ok p2 → plookup k2 p2 = plookup k2 p) := by
  refine ⟨plookup_pinsert_ne key k2 _ p hne,
          plookup_pinsert_ne key k2 _ p hne, ?_⟩
  intro h
  unfold remove_from_payload at h
  cases hl : plookup key p with
  | none => rw [hl] at h; exact Except.noConfusion h
  | some e =>
    rw [hl] at h
    have hp2 : p2 = perase key p := (Except.ok.injEq _ _ |>.mp h).symm
    subst hp2
    exact plookup_perase_ne key k2 p hne

theorem C8_frame_witness :
    plookup "other" (add_to_payload_ "st" [Prim.int 1] 5
        [("st", PVal.doc (some [Prim.int 2]) (some 0)),
         ("other", PVal.doc (some [Prim.int 9]) (some 1))]) =
      plookup "other" [("st", PVal.doc (some [Prim.int 2]) (some 0)),
                       ("other", PVal.doc (some [Prim.int 9]) (some 1))]
    ∧ plookup "other" (remove_from_payload_by_merge_ "st"
        [("st", PVal.doc (some [Prim.int 2]) (some 0)),
         ("other", PVal.doc (some [Prim.int 9]) (some 1))]) =
      plookup "other" [("st", PVal.doc (some [Prim.int 2]) (some 0)),
                       ("other", PVal.doc (some [Prim.int 9]) (some 1))]
    ∧ (remove_from_payload "st"
          [("st", PVal.doc (some [Prim.int 2]) (some 0)),
           ("other", PVal.doc (some [Prim.int 9]) (some 1))] =
          .ok [("other", PVal.doc (some [Prim.int 9]) (some 1))] →
        plookup "other" [("other", PVal.doc (some [Prim.int 9]) (some 1))] =
          plookup "other" [("st", PVal.doc (some [Prim.int 2]) (some 0)),
                           ("other", PVal.doc (some [Prim.int 9]) (some 1))]) :=
  C8_frame "st" "other" [Prim.int 1] 5
    [("st", PVal.doc (some [Prim.int 2]) (some 0)),
     ("other", PVal.doc (some [Prim.int 9]) (some 1))]
    [("other", PVal.doc (some [Prim.int 9]) (some 1))] (by decide)

/-- C10: the factory constructors and `PrimitiveArrayClaim.__init__` apply
defaults by Python truthiness: `max_age_in_seconds = 0` yields the factory
default, `id_ = ""` yields the claim key, and a claim constructed with
`default_max_age_in_sec = 0` gets the 300-second factory default. -/
theorem C10_truthy_defaults (key : String) (dflt : Int) (v : Prim)
    (vl : List Prim) :
    (let f : PrimitiveArrayClaimValidators :=
      { claimKey := key, default_max_age_in_sec := dflt }
    (f.includes v none (some 0)).max_age_in_sec = some dflt
    ∧ (f.excludes v none (some 0)).max_age_in_sec = some dflt
    ∧ (f.includes_all vl none (some 0)).max_age_in_sec = some dflt
    ∧ (f.excludes_all vl none (some 0)).max_age_in_sec = some dflt
    ∧ (f.includes v (some "") none).id = key
    ∧ (f.excludes v (some "") none).id = key
    ∧ (f.includes_all vl (some "") none).id = key
    ∧ (f.excludes_all vl (some "") none).id = key)
    ∧ (mkPrimitiveArrayClaim key (some 0)).validators.default_max_age_in_sec
        = 300 := by
  refine ⟨⟨?_, ?_, ?_, ?_, ?_, ?_, ?_, ?_⟩, ?_⟩ <;>
    simp [PrimitiveArrayClaimValidators.includes,
          PrimitiveArrayClaimValidators.excludes,
          PrimitiveArrayClaimValidators.includes_all,
          PrimitiveArrayClaimValidators.excludes_all,
          mkPrimitiveArrayClaim, pyOrInt, pyOrStr]

/-- C6: `should_refetch` is true exactly when the claim value is absent, or
the max age is set and the stored timestamp is strictly older than
`max_age_in_sec` seconds (`now_ms - t > max_age_in_sec * 1000`); at age
exactly `max_age_in_sec * 1000` ms it is false. -/
theorem C6_should_refetch (key : String) (maxAge : Option Int) (now : Int)
    (p : Payload) :
    (get_value_from_payload key p = .ok none →
      should_refetch key maxAge now p = .ok true)
    ∧ (∀ cv t0, plookup key p = some (.doc (some cv) (some t0)) →
        should_refetch key maxAge now p =
          .ok (match maxAge with
               | none => false
               | some m => decide (now - t0 > m * 1000))) := by
  constructor
  · intro h
    unfold should_refetch
    rw [h]
  · intro cv t0 hv
    unfold should_refetch get_value_from_payload
    rw [hv]
    cases maxAge with
    | none => rfl
    | some m =>
      simp only [Option.getD_some]
      congr 1
      simp only [decide_eq_decide]
      omega

theorem C6_should_refetch_witness :
    should_refetch "st" (some 300) 1000000
        [("st", PVal.doc (some [Prim.int 1]) (some 700000))] = .ok false
    ∧ should_refetch "st" (some 300) 1000001
        [("st", PVal.doc (some [Prim.int 1]) (some 700000))] = .ok true := by
  constructor
  · exact (C6_should_refetch "st" (some 300) 1000000
      [("st", PVal.doc (some [Prim.int 1]) (some 700000))]).2
      [Prim.int 1] 700000 rfl
  · exact (C6_should_refetch "st" (some 300) 1000001
      [("st", PVal.doc (some [Prim.int 1]) (some 700000))]).2
      [Prim.int 1] 700000 rfl

/-- C7: when the claim value exists and the age
`(now_ms - last_refetch_time) / 1000` strictly exceeds the configured
`max_age_in_sec`, `_validate` returns the invalid `"expired"` result carrying
that age and max age; when the age is at most the max age (in particular at
equality) the expired branch is not taken and evaluation proceeds to the
membership step. -/
theorem C7_expired (key : String) (val : CfgVal) (m : Int) (inc : Bool)
    (now t0 : Int) (cv : List Prim) (p : Payload)
    (hv : plookup key p = some (.doc (some cv) (some t0))) :
    ((m : ℚ) < ((now - t0 : Int) : ℚ) / 1000 →
      SCVMixin.validate key val (some m) inc now p =
        .ok (.invalid [("message", .str "expired"),
                       ("ageInSeconds", .rat (((now - t0 : Int) : ℚ) / 1000)),
                       ("maxAgeInSeconds", .int m)]))
    ∧ (((now - t0 : Int) : ℚ) / 1000 ≤ (m : ℚ) →
        SCVMixin.validate key val (some m) inc now p =
          .ok (validateVals val cv inc)) := by
  constructor
  · intro hexp
    exact validate_expired_eq key val m inc now t0 cv p hv hexp
  · intro hfresh
    exact validate_fresh_eq key val (some m) inc now t0 cv p hv
      (fun m2 hm2 => by cases hm2; exact hfresh)

theorem C7_expired_witness :
    SCVMixin.validate "st" (CfgVal.single (Prim.int 1)) (some 300) true 301000
        [("st", PVal.doc (some [Prim.int 1]) (some 0))] =
      .ok (.invalid [("message", .str "expired"),
                     ("ageInSeconds", .rat (((301000 - 0 : Int) : ℚ) / 1000)),
                     ("maxAgeInSeconds", .int 300)])
    ∧ SCVMixin.validate "st" (CfgVal.single (Prim.int 1)) (some 300) true 300000
        [("st", PVal.doc (some [Prim.int 1]) (some 0))] =
      .ok (validateVals (CfgVal.single (Prim.int 1)) [Prim.int 1] true) := by
  constructor
  · exact (C7_expired "st" (CfgVal.single (Prim.int 1)) 300 true 301000 0
      [Prim.int 1] [("st", PVal.doc (some [Prim.int 1]) (some 0))] rfl).1
      (by norm_num)
  · exact (C7_expired "st" (CfgVal.single (Prim.int 1)) 300 true 300000 0
      [Prim.int 1] [("st", PVal.doc (some [Prim.int 1]) (some 0))] rfl).2
      (by norm_num)

/-- C9: on a payload whose entry at the claim key (if any) carries both `v`
and `t`, `_validate` always returns a result (the assertion on the refetch
time never fires and no error is raised); whereas a corrupted entry with the
value present but the timestamp missing aborts `_validate` with an assertion
failure instead of producing a validation result. -/
theorem C9_assertion (key : String) (val : CfgVal) (maxAge : Option Int)
    (inc : Bool) (now : Int) (p : Payload) :
    ((∀ e, plookup key p = some e →
        ∃ cv t0, e = PVal.doc (some cv) (some t0)) →
      ∃ r, SCVMixin.validate key val maxAge inc now p = .ok r)
    ∧ (∀ cv, plookup key p = some (PVal.doc (some cv) none) →
        SCVMixin.validate key val maxAge inc now p = .error .assertionError) := by
  constructor
  · intro hwf
    cases hl : plookup key p with
    | none =>
      refine ⟨_, validate_missing_eq key val maxAge inc now p ?_⟩
      unfold get_value_from_payload
      rw [hl]
    | some e =>
      obtain ⟨cv, t0, rfl⟩ := hwf e hl
      by_cases hfresh : ∀ m, maxAge = some m →
          ((now - t0 : Int) : ℚ) / 1000 ≤ (m : ℚ)
      · exact ⟨_, validate_fresh_eq key val maxAge inc now t0 cv p hl hfresh⟩
      · push_neg at hfresh
        obtain ⟨m, hm, hexp⟩ := hfresh
        subst hm
        exact ⟨_, validate_expired_eq key val m inc now t0 cv p hl hexp⟩
  · intro cv hv
    unfold SCVMixin.validate get_value_from_payload get_last_refetch_time
    rw [hv]

theorem C9_assertion_witness :
    (∃ r, SCVMixin.validate "st" (CfgVal.single (Prim.int 1)) (some 300) true 0
        [("st", PVal.doc (some [Prim.int 1]) (some 0))] = .ok r)
    ∧ SCVMixin.validate "st" (CfgVal.single (Prim.int 1)) (some 300) true 0
        [("st", PVal.doc (some [Prim.int 1]) none)] =
      .error .assertionError := by
  constructor
  · exact (C9_assertion "st" (CfgVal.single (Prim.int 1)) (some 300) true 0
      [("st", PVal.doc (some [Prim.int 1]) (some 0))]).1
      (fun e he => by
        have h2 : some (PVal.doc (some [Prim.int 1]) (some 0)) = some e := he
        injection h2 with h3
        exact ⟨[Prim.int 1], 0, h3.symm⟩)
  · exact (C9_assertion "st" (CfgVal.single (Prim.int 1)) (some 300) true 0
      [("st", PVal.doc (some [Prim.int 1]) none)]).2 [Prim.int 1] rfl

/-- C1: with the claim value present and not expired, the include variants
return the invalid `"wrong value"` result — reporting the normalized
configured sequence and the claim value — exactly when some normalized
element is absent from the claim-value set, the exclude variants exactly when
some normalized element is present in it, and otherwise the result is valid
with no reason; the membership loops short-circuit on the first failing
element of the normalized sequence. -/
theorem C1_value_check (key : String) (val : CfgVal) (maxAge : Option Int)
    (inc : Bool) (now t0 : Int) (cv : List Prim) (p : Payload)
    (hv : plookup key p = some (.doc (some cv) (some t0)))
    (hfresh : ∀ m, maxAge = some m → ((now - t0 : Int) : ℚ) / 1000 ≤ (m : ℚ)) :
    (SCVMixin.validate key val maxAge inc now p =
        .ok (.invalid [("message", .str "wrong value"),
                       (expectedKeyName inc, .primList val.normalize),
                       ("actualValue", .primList cv)])
      ↔ (if inc then ∃ v ∈ val.normalize, v ∉ cv
         else ∃ v ∈ val.normalize, v ∈ cv))
    ∧ (SCVMixin.validate key val maxAge inc now p = .ok .valid
      ↔ (if inc then ∀ v ∈ val.normalize, v ∈ cv
         else ∀ v ∈ val.normalize, v ∉ cv))
    ∧ scvLoopInclude cv val.normalize
        = val.normalize.find? (fun v => !decide (v ∈ cv))
    ∧ scvLoopExclude cv val.normalize
        = val.normalize.find? (fun v => decide (v ∈ cv)) := by
  have hval := validate_fresh_eq key val maxAge inc now t0 cv p hv hfresh
  rw [hval, validateVals_spec]
  refine ⟨?_, ?_, scvLoopInclude_eq_find cv val.normalize,
          scvLoopExclude_eq_find cv val.normalize⟩
  · cases inc with
    | true =>
      simp only [eq_self_iff_true, if_true]
      by_cases hall : ∀ v ∈ val.normalize, v ∈ cv
      · rw [if_pos hall]
        exact iff_of_false
          (fun h => ClaimValidationResult.noConfusion (Except.ok.inj h))
          (fun ⟨v, hm, hn⟩ => hn (hall v hm))
      · rw [if_neg hall]
        push_neg at hall
        exact iff_of_true rfl hall
    | false =>
      simp only [Bool.false_eq_true, if_false]
      by_cases hall : ∀ v ∈ val.normalize, v ∉ cv
      · rw [if_pos hall]
        exact iff_of_false
          (fun h => ClaimValidationResult.noConfusion (Except.ok.inj h))
          (fun ⟨v, hm, hn⟩ => hall v hm hn)
      · rw [if_neg hall]
        push_neg at hall
        exact iff_of_true rfl hall
  · by_cases hall : (if inc then ∀ v ∈ val.normalize, v ∈ cv
        else ∀ v ∈ val.normalize, v ∉ cv)
    · rw [if_pos hall]
      exact iff_of_true rfl hall
    · rw [if_neg hall]
      exact iff_of_false
        (fun h => ClaimValidationResult.noConfusion (Except.ok.inj h)) hall

theorem C1_value_check_witness :
    SCVMixin.validate "st" (CfgVal.list [Prim.int 2, Prim.int 5]) none false 0
        [("st", PVal.doc (some [Prim.int 1, Prim.int 2, Prim.int 3]) (some 0))] =
      .ok (.invalid [("message", .str "wrong value"),
                     ("expectedToNotInclude",
                        .primList [Prim.int 2, Prim.int 5]),
                     ("actualValue",
                        .primList [Prim.int 1, Prim.int 2, Prim.int 3])]) := by
  have h := (C1_value_check "st" (CfgVal.list [Prim.int 2, Prim.int 5]) none
    false 0 0 [Prim.int 1, Prim.int 2, Prim.int 3]
    [("st", PVal.doc (some [Prim.int 1, Prim.int 2, Prim.int 3]) (some 0))]
    rfl (fun m hm => Option.noConfusion hm)).1
  exact h.mpr (by
    simp only [Bool.false_eq_true, if_false]
    exact ⟨Prim.int 2, by decide, by decide⟩)
